import Mathlib

/-!
Verification of the audible-garden turntable core against its specification.

The Python sources are embedded shallowly:
* floating-point quantities are modelled as exact rationals (`ℚ`); every
  concrete computation the theorems touch is exactly representable in
  binary floating point, so the rational model agrees with the float code
  on those inputs;
* Python `int(x)` on a float truncates toward zero (`pyint`);
* Python `x % y` on floats is `x - y * ⌊x / y⌋` for `y > 0` (`pyfmod`);
* Python `//` and `%` on non-negative ints agree with `Int.ediv`/`Int.emod`,
  which are Lean's `/` and `%` on `ℤ`;
* calls into external libraries (OpenCV feature detection and matching,
  `cv.resize`, `random.shuffle`, `random.uniform`) are passed in as
  explicit functional parameters, so the surrounding control flow stays
  exactly the source's;
* `raise` is modelled with `Except.error`.
-/

/-- Python `int()` applied to a (rational-modelled) float: truncation toward
zero. -/
def pyint (x : ℚ) : ℤ := if 0 ≤ x then ⌊x⌋ else ⌈x⌉

/-- Python float modulo `x % y` for positive `y`: `x - y * floor (x / y)`. -/
def pyfmod (x y : ℚ) : ℚ := x - y * ⌊x / y⌋

/-- Mean of a list of rationals, modelling `np.mean` on a non-empty array. -/
def listMean (l : List ℚ) : ℚ := l.sum / l.length

namespace FixedTurntable

/-- Result record of `calculate_timing_parameters`
(src/revised/fixed_turntable.py lines 395-413). -/
structure TimingInfo where
  rpm : ℚ
  rotation_time : ℚ
  zodiac_section_time : ℚ
  frames_per_rotation : ℤ
  frames_per_zodiac_section : ℤ
  degrees_per_frame : ℚ
  deriving Repr, DecidableEq

/-- Embedding of `calculate_timing_parameters(rpm, fps)`
(src/revised/fixed_turntable.py lines 395-413).  `int()` is `pyint`. -/
def calculate_timing_parameters (rpm fps : ℚ) : TimingInfo :=
  let rotation_time : ℚ := 60 / rpm
  let zodiac_section_time : ℚ := rotation_time / 12
  let frames_per_rotation : ℤ := pyint (rotation_time * fps)
  let frames_per_zodiac_section : ℤ := pyint (zodiac_section_time * fps)
  { rpm := rpm
    rotation_time := rotation_time
    zodiac_section_time := zodiac_section_time
    frames_per_rotation := frames_per_rotation
    frames_per_zodiac_section := frames_per_zodiac_section
    degrees_per_frame := 360 / (frames_per_rotation : ℚ) }

/-- The main loop's current angle for a frame:
`(frame_count * timing['degrees_per_frame']) % 360`
(src/revised/fixed_turntable.py line 897). -/
def current_angle_of_frame (t : TimingInfo) (frame_count : ℕ) : ℚ :=
  pyfmod ((frame_count : ℚ) * t.degrees_per_frame) 360

/-- The main loop's zodiac sector for a frame:
`int(current_angle / 30.0) % 12` (src/revised/fixed_turntable.py line 908). -/
def zodiac_section_of_frame (t : TimingInfo) (frame_count : ℕ) : ℤ :=
  pyint (current_angle_of_frame t frame_count / 30) % 12

end FixedTurntable

namespace CorrectedAP

/-- Embedding of `CorrectedAudioProcessor.calculate_current_position`
(src/corrected_audio_processing.py lines 90-117), with the
`frames_per_rotation` / `frames_per_zodiac_section` fields (already set by
`update_fps_dependent_values`) passed explicitly.  Returns
`(rotation_progress, zodiac_section, angle_degrees)`. -/
def calculate_current_position (frames_per_rotation frames_per_zodiac_section : ℤ)
    (frame_count : ℤ) : ℚ × ℤ × ℚ :=
  let frames_in_current_rotation : ℤ := frame_count % frames_per_rotation
  let rotation_progress : ℚ :=
    (frames_in_current_rotation : ℚ) / (frames_per_rotation : ℚ)
  let zodiac_section : ℤ := (frame_count / frames_per_zodiac_section) % 12
  let angle_degrees : ℚ := rotation_progress * 360
  (rotation_progress, zodiac_section, angle_degrees)

end CorrectedAP

section Claim1

open FixedTurntable CorrectedAP

/-- Frame index-to-sector helper facts used by the C1 proof. -/
theorem pyfmod_eq_self {x y : ℚ} (hx : 0 ≤ x) (hxy : x < y) : pyfmod x y = x := by
  have hy : 0 < y := lt_of_le_of_lt hx hxy
  have h0 : ⌊x / y⌋ = 0 := by
    rw [Int.floor_eq_zero_iff]
    constructor
    · positivity
    · rw [div_lt_one hy]; exact hxy
  simp [pyfmod, h0]

/-- C1: with rpm = 2.5 and fps = 30 the timing model yields
`frames_per_rotation = 720`; every frame index in `[0, 60)` is assigned
sector 0 and every frame index in `[660, 720)` sector 11, both by the
fixed_turntable main-loop sector computation and by
`CorrectedAudioProcessor.calculate_current_position` (whose
`frames_per_zodiac_section` is 60 there). -/
theorem c1_timing_and_sectors :
    (calculate_timing_parameters (5/2) 30).frames_per_rotation = 720 ∧
    (∀ i : ℕ, i < 60 →
      zodiac_section_of_frame (calculate_timing_parameters (5/2) 30) i = 0 ∧
      (calculate_current_position 720 60 (i : ℤ)).2.1 = 0) ∧
    (∀ i : ℕ, 660 ≤ i → i < 720 →
      zodiac_section_of_frame (calculate_timing_parameters (5/2) 30) i = 11 ∧
      (calculate_current_position 720 60 (i : ℤ)).2.1 = 11) := by
  have htp : calculate_timing_parameters (5/2) 30 =
      { rpm := 5/2, rotation_time := 24, zodiac_section_time := 2,
        frames_per_rotation := 720, frames_per_zodiac_section := 60,
        degrees_per_frame := 1/2 } := by
    simp only [calculate_timing_parameters, pyint]
    norm_num
  have hsector : ∀ i : ℕ, i < 720 →
      zodiac_section_of_frame (calculate_timing_parameters (5/2) 30) i =
        ((i : ℤ) / 60) % 12 := by
    intro i hi
    have hang : current_angle_of_frame (calculate_timing_parameters (5/2) 30) i =
        (i : ℚ) / 2 := by
      rw [htp]
      show pyfmod ((i : ℚ) * (1/2)) 360 = (i : ℚ) / 2
      rw [pyfmod_eq_self (by positivity)]
      · ring
      · have : (i : ℚ) < 720 := by exact_mod_cast hi
        linarith
    unfold zodiac_section_of_frame
    rw [hang]
    have hdiv : (i : ℚ) / 2 / 30 = ((i : ℤ) : ℚ) / ((60 : ℕ) : ℚ) := by
      push_cast; ring
    rw [pyint, if_pos (by positivity), hdiv, Rat.floor_intCast_div_natCast]
    norm_num
  have hcorr : ∀ i : ℕ, i < 720 →
      (calculate_current_position 720 60 (i : ℤ)).2.1 = ((i : ℤ) / 60) % 12 := by
    intro i _
    rfl
  refine ⟨by rw [htp], ?_, ?_⟩
  · intro i hi
    have h720 : i < 720 := by omega
    rw [hsector i h720, hcorr i h720]
    have : (i : ℤ) / 60 = 0 := by omega
    rw [this]
    norm_num
  · intro i hlo hhi
    rw [hsector i hhi, hcorr i hhi]
    have : (i : ℤ) / 60 = 11 := by omega
    rw [this]
    norm_num

/-- Witness for C1 at concrete frame indices 3 and 700. -/
theorem c1_timing_and_sectors_witness :
    FixedTurntable.zodiac_section_of_frame
      (FixedTurntable.calculate_timing_parameters (5/2) 30) 3 = 0 ∧
    FixedTurntable.zodiac_section_of_frame
      (FixedTurntable.calculate_timing_parameters (5/2) 30) 700 = 11 ∧
    (CorrectedAP.calculate_current_position 720 60 700).2.1 = 11 :=
  ⟨(c1_timing_and_sectors.2.1 3 (by norm_num)).1,
   (c1_timing_and_sectors.2.2 700 (by norm_num) (by norm_num)).1,
   (c1_timing_and_sectors.2.2 700 (by norm_num) (by norm_num)).2⟩

end Claim1

namespace AudioUtilsSimple

/-- State of `ValMapper` (src/revised/utils/audio_utils_simple.py lines
16-64): mode string, input array (modelled as a list of rationals, the
float dtype of its actual callers), and the four range bounds. -/
structure ValMapper where
  mode : String
  input_values : List ℚ
  input_min : ℚ
  input_max : ℚ
  output_min : ℚ
  output_max : ℚ

/-- Embedding of `ValMapper.__call__` (src/revised/utils/audio_utils_simple.py
lines 40-64).  `np.full_like` on a float array fills with the midpoint;
`np.clip(v, lo, hi)` is `min (max v lo) hi`; the unsupported-mode branch
raises `ValueError`, modelled as `Except.error`. -/
def ValMapper.call (m : ValMapper) : Except String (List ℚ) :=
  if m.mode = "linear" then
    let input_range := m.input_max - m.input_min
    let output_range := m.output_max - m.output_min
    if input_range = 0 then
      Except.ok (m.input_values.map fun _ => (m.output_min + m.output_max) / 2)
    else
      Except.ok (m.input_values.map fun x =>
        let normalized := (x - m.input_min) / input_range
        let mapped := normalized * output_range + m.output_min
        min (max mapped m.output_min) m.output_max)
  else
    Except.error ("unsupported mapping mode: " ++ m.mode)

end AudioUtilsSimple

section Claim10

open AudioUtilsSimple

/-- C10: the linear `ValMapper.__call__` is total on all numeric inputs.
When `input_max = input_min` it returns the midpoint
`(output_min + output_max) / 2` for every element; otherwise (given
`output_min ≤ output_max`) every returned element lies in
`[output_min, output_max]`. -/
theorem c10_valmapper_total (xs : List ℚ) (imin imax omin omax : ℚ) :
    (imax = imin →
      ValMapper.call ⟨"linear", xs, imin, imax, omin, omax⟩ =
        Except.ok (xs.map fun _ => (omin + omax) / 2)) ∧
    (imax ≠ imin → omin ≤ omax →
      ∃ ys, ValMapper.call ⟨"linear", xs, imin, imax, omin, omax⟩ = Except.ok ys ∧
        ys.length = xs.length ∧ ∀ y ∈ ys, omin ≤ y ∧ y ≤ omax) := by
  constructor
  · intro h
    simp [ValMapper.call, h]
  · intro hne hle
    have hRange : imax - imin ≠ 0 := sub_ne_zero.mpr hne
    refine ⟨xs.map fun x =>
        min (max ((x - imin) / (imax - imin) * (omax - omin) + omin) omin) omax,
      ?_, by simp, ?_⟩
    · simp [ValMapper.call, hRange]
    · intro y hy
      simp only [List.mem_map] at hy
      obtain ⟨x, _, rfl⟩ := hy
      constructor
      · exact le_min (le_max_right _ _) hle
      · exact min_le_right _ _

/-- Witness for C10: both branches at concrete inputs. -/
theorem c10_valmapper_total_witness :
    (AudioUtilsSimple.ValMapper.call ⟨"linear", [3, 7], 5, 5, 0, 127⟩ =
      Except.ok [(127 : ℚ)/2, 127/2]) ∧
    (∃ ys, AudioUtilsSimple.ValMapper.call ⟨"linear", [0, 50, 300], 0, 255, 32, 127⟩ =
      Except.ok ys ∧ ys.length = 3 ∧ ∀ y ∈ ys, (32 : ℚ) ≤ y ∧ y ≤ 127) := by
  constructor
  · have h := (c10_valmapper_total [3, 7] 5 5 0 127).1 rfl
    simpa using h
  · have h := (c10_valmapper_total [0, 50, 300] 0 255 32 127).2
      (by norm_num) (by norm_num)
    simpa using h

end Claim10

namespace RotationUtils

/-- State of `RotationDetector` (src/revised/utils/rotation_utils.py).
Keypoints are modelled as planar points, descriptors as opaque naturals;
the OpenCV ORB/BFMatcher/estimateAffinePartial2D calls are external and
their per-frame results are passed to the methods as explicit inputs. -/
structure RotationDetector where
  fps : ℚ
  buffer_size : ℕ
  reference_kp : List (ℚ × ℚ)
  reference_des : Option (List ℕ)
  last_angle : ℚ
  rpm : ℚ
  rpm_buffer : List ℚ

/-- Constructor `RotationDetector.__init__` (src/revised/utils/rotation_utils.py
lines 9-28): empty reference, zero last angle and rpm, empty buffer. -/
def RotationDetector.init (fps : ℚ) (buffer_size : ℕ := 30) : RotationDetector :=
  { fps := fps, buffer_size := buffer_size, reference_kp := [],
    reference_des := none, last_angle := 0, rpm := 0, rpm_buffer := [] }

/-- Embedding of `set_reference_frame`
(src/revised/utils/rotation_utils.py lines 30-55).  The frame argument is
`Option`al (`None` check); `detected` is the result of the external
`orb.detectAndCompute(gray, mask)` call on the centrally masked frame:
the keypoint list and the optional descriptor array (OpenCV returns `None`
descriptors when no feature is found).  The source stores whatever was
detected, resets `last_angle` and clears the rpm buffer; it only prints a
warning when descriptors are `None` and never raises. -/
def RotationDetector.set_reference_frame (r : RotationDetector)
    (frame : Option Unit) (detected : List (ℚ × ℚ) × Option (List ℕ)) :
    RotationDetector :=
  match frame with
  | none => r
  | some _ =>
    { r with reference_kp := detected.1, reference_des := detected.2,
             last_angle := 0, rpm_buffer := [] }

/-- The angular-delta normalization inside `calculate_rpm`
(src/revised/utils/rotation_utils.py lines 98-103):
`angle_diff = angle - last_angle`, then subtract 360 if `> 180`,
add 360 if `< -180`. -/
def normalizeAngleDiff (angle last_angle : ℚ) : ℚ :=
  let angle_diff := angle - last_angle
  if 180 < angle_diff then angle_diff - 360
  else if angle_diff < -180 then angle_diff + 360
  else angle_diff

/-- Append to the rpm `deque(maxlen = buffer_size)`: the oldest entries are
dropped so at most `buffer_size` remain. -/
def pushBuffer (buf : List ℚ) (size : ℕ) (x : ℚ) : List ℚ :=
  let b := buf ++ [x]
  b.drop (b.length - size)

/-- Embedding of `calculate_rpm` (src/revised/utils/rotation_utils.py lines
57-117).  External OpenCV results are inputs: `detected` from
`orb.detectAndCompute(gray, None)` on the current frame,
`match_distances` the distances of `matcher.match(reference_des,
current_des)`, and `est_angle` the angle
`degrees(atan2(M[1,0], M[0,0]))` extracted from the transform returned by
`cv.estimateAffinePartial2D` (`none` when `M is None`).  Returns the new
detector state and the returned rpm value. -/
def RotationDetector.calculate_rpm (r : RotationDetector)
    (current_frame : Option Unit)
    (detected : List (ℚ × ℚ) × Option (List ℕ))
    (match_distances : List ℚ) (est_angle : Option ℚ) :
    RotationDetector × ℚ :=
  if r.reference_des = none ∨ current_frame = none then (r, 0)
  else
    match detected.2 with
    | none => (r, r.rpm)
    | some current_des =>
      if current_des.length < 10 then (r, r.rpm)
      else
        let good_matches := (match_distances.mergeSort fun a b => a ≤ b).take 25
        if good_matches.length < 10 then (r, r.rpm)
        else
          match est_angle with
          | none => (r, r.rpm)
          | some angle =>
            let angle_diff := normalizeAngleDiff angle r.last_angle
            let angular_velocity_dps := angle_diff * r.fps
            let current_rpm := |angular_velocity_dps / 6|
            let buf := pushBuffer r.rpm_buffer r.buffer_size current_rpm
            let new_rpm := listMean buf
            ({ r with last_angle := angle, rpm_buffer := buf, rpm := new_rpm },
             new_rpm)

end RotationUtils

section Claim9

open RotationUtils

/-- C9 counterexample: the normalized angular delta is NOT always strictly
above -180.  With `last_angle = 180` (a value `degrees(atan2(..))` can
return, e.g. for a half-turn transform) and a current extracted angle of 0,
`angle_diff = -180`, which the guard `angle_diff < -180` leaves untouched:
the delta used for the RPM computation is exactly -180, outside the claimed
half-open interval `(-180, 180]`. -/
theorem c9_counterexample :
    RotationUtils.normalizeAngleDiff 0 180 = -180 ∧
    ¬ (-180 < RotationUtils.normalizeAngleDiff 0 180) := by
  constructor
  · norm_num [RotationUtils.normalizeAngleDiff]
  · norm_num [RotationUtils.normalizeAngleDiff]

/-- C9 amended: for extracted angles and previous angles in `[-180, 180]`
(the range of `degrees(atan2(..))` together with the initial 0), the
normalized angular delta used for the RPM computation lies in the CLOSED
interval `[-180, 180]`; both endpoints are attainable. -/
theorem c9_delta_normalized_closed (angle last_angle : ℚ)
    (ha₁ : -180 ≤ angle) (ha₂ : angle ≤ 180)
    (hl₁ : -180 ≤ last_angle) (hl₂ : last_angle ≤ 180) :
    -180 ≤ normalizeAngleDiff angle last_angle ∧
      normalizeAngleDiff angle last_angle ≤ 180 := by
  dsimp only [normalizeAngleDiff]
  split_ifs with h1 h2 <;> constructor <;> linarith

/-- Witness for C9 amended at angle 90, last angle 0. -/
theorem c9_delta_normalized_closed_witness :
    -180 ≤ RotationUtils.normalizeAngleDiff 90 0 ∧
      RotationUtils.normalizeAngleDiff 90 0 ≤ 180 :=
  c9_delta_normalized_closed 90 0 (by norm_num) (by norm_num) (by norm_num)
    (by norm_num)

end Claim9

section Claim8

open RotationUtils

/-- C8 counterexample: `set_reference_frame` does NOT fail when fewer than
10 features are detected.  With a single detected keypoint/descriptor the
reference template is established anyway (the stored descriptors become
that one-element array); the function has no failure result at all — it
only prints a warning when the descriptor array is `None`. -/
theorem c8_counterexample :
    ((RotationDetector.init 30).set_reference_frame (some ())
        ([(1, 2)], some [42])).reference_des = some [42] := rfl

/-- C8 amended: `set_reference_frame` performs no minimum-feature-count
check and cannot fail: for every detection result (including fewer than 10
features) it stores the detected keypoints/descriptors as the new
reference, resets `last_angle` and clears the rpm buffer.  The ≥ 10
minimum is instead enforced inside `calculate_rpm`, which returns the
previous RPM with the state unchanged when the current frame has fewer
than 10 descriptors. -/
theorem c8_set_reference_no_min_check :
    (∀ (r : RotationDetector) (det : List (ℚ × ℚ) × Option (List ℕ)),
      r.set_reference_frame (some ()) det =
        { r with reference_kp := det.1, reference_des := det.2,
                 last_angle := 0, rpm_buffer := [] }) ∧
    (∀ (r : RotationDetector) (kps : List (ℚ × ℚ)) (cd : List ℕ)
        (dists : List ℚ) (est : Option ℚ),
      r.reference_des ≠ none → cd.length < 10 →
      r.calculate_rpm (some ()) (kps, cd) dists est = (r, r.rpm)) := by
  constructor
  · intro r det
    rfl
  · intro r kps cd dists est href hlen
    unfold RotationDetector.calculate_rpm
    rw [if_neg (by simp [href])]
    simp only
    rw [if_pos hlen]

/-- Witness for C8 amended: a concrete detector with a reference set and a
current frame carrying a single descriptor. -/
theorem c8_set_reference_no_min_check_witness :
    (((RotationDetector.init 30).set_reference_frame (some ())
        ([(0, 0)], some [7])) =
      { (RotationDetector.init 30) with
          reference_kp := [(0, 0)]
          reference_des := some [7]
          last_angle := 0
          rpm_buffer := [] }) ∧
    (({ (RotationDetector.init 30) with
          reference_des := some [7]
          rpm := 3 } : RotationDetector).calculate_rpm (some ()) ([], [5])
        [] none =
      ({ (RotationDetector.init 30) with
          reference_des := some [7]
          rpm := 3 },
       3)) :=
  ⟨c8_set_reference_no_min_check.1 (RotationDetector.init 30)
      ([(0, 0)], some [7]),
   c8_set_reference_no_min_check.2
      { (RotationDetector.init 30) with
          reference_des := some [7]
          rpm := 3 }
      [] [5] [] none (by simp) (by norm_num)⟩

end Claim8

namespace Scanline

/-- Frame whose pixels are channel lists, as accessed by
`extract_radial_scanline` (`frame[y, x]` is a BGR triple or a grayscale
scalar; `len(pixel_value) == 3` distinguishes them). -/
structure ChanFrame where
  h : ℕ
  w : ℕ
  pix : ℕ → ℕ → List ℕ

/-- Frame of BGR pixels `(B, G, R)`. -/
structure BGRFrame where
  h : ℕ
  w : ℕ
  pix : ℕ → ℕ → ℕ × ℕ × ℕ

/-- Grayscale frame. -/
structure GrayFrame where
  h : ℕ
  w : ℕ
  pix : ℕ → ℕ → ℕ

/-- Luma conversion of one BGR pixel, modelling `cv2.cvtColor(.,
COLOR_BGR2GRAY)`'s documented weighting `0.299 R + 0.587 G + 0.114 B` with
rounding to the nearest uint8.  No theorem below depends on the exact
rounding. -/
def cvtGrayPixel (p : ℕ × ℕ × ℕ) : ℕ :=
  (299 * p.2.2 + 587 * p.2.1 + 114 * p.1 + 500) / 1000

/-- Whole-frame `cv2.cvtColor(frame, COLOR_BGR2GRAY)`. -/
def bgr2gray (f : BGRFrame) : GrayFrame :=
  { h := f.h, w := f.w, pix := fun y x => cvtGrayPixel (f.pix y x) }

/-- The `cv2.rotate(frame, ROTATE_90_CLOCKWISE)` applied by the callers:
the destination has the source's width as height and reads
`dst[i][j] = src[h-1-j][i]`. -/
def rotate90cw (f : BGRFrame) : BGRFrame :=
  { h := f.w, w := f.h, pix := fun i j => f.pix (f.h - 1 - j) i }

/-- Grayscale reduction of one sampled pixel inside
`extract_radial_scanline` (src/revised/fixed_turntable.py lines 490-497):
BGR triples get the `0.299 / 0.587 / 0.114` luma weighting truncated by
`int()`, grayscale scalars pass through. -/
def scanGray (channels : List ℕ) : ℤ :=
  if channels.length = 3 then
    pyint ((299 : ℚ)/1000 * (channels.getD 2 0 : ℚ) +
      (587 : ℚ)/1000 * (channels.getD 1 0 : ℚ) +
      (114 : ℚ)/1000 * (channels.getD 0 0 : ℚ))
  else (channels.headI : ℤ)

/-- Embedding of `extract_radial_scanline(frame, center_x, center_y,
angle_degrees, max_radius)` (src/revised/fixed_turntable.py lines
456-499) for an explicitly given `max_radius`.  The float values
`np.cos(angle_rad)` / `np.sin(angle_rad)` of the external trig calls are
passed in as the rationals `cosA` / `sinA`.  For every integer radius
in `np.arange(0, max_radius)` the polar-to-Cartesian pixel coordinate is
formed with `int()` truncation; coordinates outside the frame are
FILTERED OUT by `valid_mask`, and the samples of the remaining
coordinates are returned (an all-out-of-bounds scan returns the empty
array). -/
def extract_radial_scanline (f : ChanFrame) (center_x center_y : ℤ)
    (cosA sinA : ℚ) (max_radius : ℕ) : List ℤ :=
  let r_values := List.range max_radius
  let coords := r_values.map fun (r : ℕ) =>
    (pyint ((center_x : ℚ) + (r : ℚ) * cosA),
     pyint ((center_y : ℚ) + (r : ℚ) * sinA))
  let valid := coords.filter fun c =>
    decide (0 ≤ c.1 ∧ c.1 < (f.w : ℤ) ∧ 0 ≤ c.2 ∧ c.2 < (f.h : ℤ))
  valid.map fun c => scanGray (f.pix c.2.toNat c.1.toNat)

/-- Embedding of `CorrectedAudioProcessor.extract_roi_pixels_circular`
(src/corrected_audio_processing.py lines 176-230), with the current
angle's cosine/sine passed in as rationals.  The frame is converted to
grayscale first; for each `r in range(radius)` the coordinate is computed
with `int()` truncation and the sample is the gray pixel when the
coordinate is inside the frame, 0 otherwise. -/
def extract_roi_pixels_circular (f : BGRFrame) (center_x center_y : ℤ)
    (cosA sinA : ℚ) (radius : ℕ) : List ℕ :=
  let g := bgr2gray f
  (List.range radius).map fun (r : ℕ) =>
    let x := pyint ((center_x : ℚ) + (r : ℚ) * cosA)
    let y := pyint ((center_y : ℚ) + (r : ℚ) * sinA)
    if 0 ≤ x ∧ x < (g.w : ℤ) ∧ 0 ≤ y ∧ y < (g.h : ℤ) then
      g.pix y.toNat x.toNat
    else 0

/-- Python 2-D slice `m[r0:r1, c0:c1]` with non-negative bounds: rows and
columns are clamped to the frame. -/
def slice2d (f : BGRFrame) (r0 r1 c0 c1 : ℕ) : List (List (ℕ × ℕ × ℕ)) :=
  ((List.range f.h).filter fun i => decide (r0 ≤ i ∧ i < r1)).map fun i =>
    ((List.range f.w).filter fun j => decide (c0 ≤ j ∧ j < c1)).map fun j =>
      f.pix i j

/-- Element count of a matrix-as-row-list (`np.ndarray.size`). -/
def matSize (m : List (List α)) : ℕ := (m.map List.length).sum

/-- Embedding of `AudioProcessor.extract_roi_pixels`
(src/core_audio_processing.py lines 64-112).  The frame is rotated 90°
clockwise; in zodiac mode the sector window of height `zodiac_range`
starting at `y + hour_idx * zodiac_range` is sliced one pixel wide,
otherwise the `y..y+h` window is.  A zero-size ROI raises `ValueError`
(modelled as `Except.error`); `frame_count // hour_frame` with
`hour_frame = 0` raises `ZeroDivisionError`.  On success the grayscale
ROI and the processing region `(x, y0, 1, h0)` are returned. -/
def extract_roi_pixels (zodiac_mode : Bool) (zodiac_range time_per_zodiac : ℕ)
    (f : BGRFrame) (x y w h : ℕ) (frame_count fps : ℕ) :
    Except String (List (List ℕ) × (ℕ × ℕ × ℕ × ℕ)) :=
  let vertical_frame := rotate90cw f
  let sliced : Except String (List (List (ℕ × ℕ × ℕ)) × (ℕ × ℕ × ℕ × ℕ)) :=
    if zodiac_mode then
      let hour_frame := fps * time_per_zodiac
      if hour_frame = 0 then Except.error "ZeroDivisionError"
      else
        let hour_idx := (frame_count / hour_frame) % 12
        let zodiac_y := y + hour_idx * zodiac_range
        Except.ok (slice2d vertical_frame zodiac_y (zodiac_y + zodiac_range)
            x (x + 1),
          (x, zodiac_y, 1, zodiac_range))
    else
      Except.ok (slice2d vertical_frame y (y + h) x (x + 1), (x, y, 1, h))
  match sliced with
  | Except.error e => Except.error e
  | Except.ok (roi, region) =>
    if matSize roi = 0 then Except.error "ValueError: invalid ROI"
    else Except.ok (roi.map (List.map cvtGrayPixel), region)

end Scanline

section Claim3

open Scanline

/-- Element `r` of a map over `List.range`. -/
theorem getD_map_range (F : ℕ → α) (n r : ℕ) (hr : r < n) (d : α) :
    (((List.range n).map F).getD r d) = F r := by
  rw [List.getD_eq_getElem?_getD, List.getElem?_map, List.getElem?_range hr]
  rfl

/-- C3 counterexample: `extract_radial_scanline` does NOT record
out-of-bounds samples as zero.  On a 1×1 frame with center (0,0), angle 0
(cos 1, sin 0) and `max_radius = 2`, radius 1 falls outside the frame and
is dropped by `valid_mask`, so the profile has length 1, not
`max_radius = 2`. -/
theorem c3_counterexample :
    Scanline.extract_radial_scanline ⟨1, 1, fun _ _ => [5]⟩ 0 0 1 0 2 = [5] ∧
    (Scanline.extract_radial_scanline ⟨1, 1, fun _ _ => [5]⟩ 0 0 1 0 2).length
      ≠ 2 := by
  have heval :
      Scanline.extract_radial_scanline ⟨1, 1, fun _ _ => [5]⟩ 0 0 1 0 2
        = [5] := by
    have h2 : List.range 2 = [0, 1] := rfl
    simp only [extract_radial_scanline, h2, List.map_cons, List.map_nil,
      List.filter_cons, List.filter_nil]
    norm_num [pyint, scanGray]
  exact ⟨heval, by rw [heval]; decide⟩

/-- C3 amended: only `CorrectedAudioProcessor.extract_roi_pixels_circular`
records out-of-bounds samples as zero and always returns a profile of
length `radius`; `extract_radial_scanline` in fixed_turntable.py instead
SKIPS out-of-bounds samples, so its profile length is only bounded above
by `max_radius` (and can be shorter, per the counterexample). -/
theorem c3_radial_zero_fill (f : BGRFrame) (cx cy : ℤ) (cosA sinA : ℚ)
    (radius : ℕ) :
    (extract_roi_pixels_circular f cx cy cosA sinA radius).length = radius ∧
    (∀ r : ℕ, r < radius →
      ¬ (0 ≤ pyint ((cx : ℚ) + (r : ℚ) * cosA) ∧
          pyint ((cx : ℚ) + (r : ℚ) * cosA) < (f.w : ℤ) ∧
          0 ≤ pyint ((cy : ℚ) + (r : ℚ) * sinA) ∧
          pyint ((cy : ℚ) + (r : ℚ) * sinA) < (f.h : ℤ)) →
      (extract_roi_pixels_circular f cx cy cosA sinA radius).getD r 1 = 0) ∧
    (∀ (g : ChanFrame) (maxR : ℕ),
      (extract_radial_scanline g cx cy cosA sinA maxR).length ≤ maxR) := by
  refine ⟨?_, ?_, ?_⟩
  · simp only [extract_roi_pixels_circular, List.length_map, List.length_range]
  · intro r hr hnb
    simp only [extract_roi_pixels_circular]
    rw [getD_map_range _ _ _ hr]
    simp only [bgr2gray]
    rw [if_neg hnb]
  · intro g maxR
    simp only [extract_radial_scanline, List.length_map]
    exact le_trans (List.length_filter_le _ _)
      (le_of_eq (by rw [List.length_map, List.length_range]))

/-- Witness for C3 amended: 1×1 frame, center (0,0), angle 0,
radius 3: the profile length is 3, the out-of-bounds sample at radius 2
reads back 0, and a concrete radial scan's length is bounded by its max
radius. -/
theorem c3_radial_zero_fill_witness :
    (Scanline.extract_roi_pixels_circular ⟨1, 1, fun _ _ => (10, 20, 30)⟩
        0 0 1 0 3).length = 3 ∧
    (Scanline.extract_roi_pixels_circular ⟨1, 1, fun _ _ => (10, 20, 30)⟩
        0 0 1 0 3).getD 2 1 = 0 ∧
    (Scanline.extract_radial_scanline ⟨1, 1, fun _ _ => [5]⟩ 0 0 1 0 4).length
      ≤ 4 :=
  ⟨(c3_radial_zero_fill ⟨1, 1, fun _ _ => (10, 20, 30)⟩ 0 0 1 0 3).1,
   (c3_radial_zero_fill ⟨1, 1, fun _ _ => (10, 20, 30)⟩ 0 0 1 0 3).2.1 2
      (by norm_num) (by norm_num [pyint]),
   (c3_radial_zero_fill ⟨1, 1, fun _ _ => (10, 20, 30)⟩ 0 0 1 0 3).2.2
      ⟨1, 1, fun _ _ => [5]⟩ 4⟩

end Claim3

section Claim7

open Scanline

/-- Matrix size is unchanged by per-pixel grayscale mapping. -/
theorem matSize_map_rows (g : α → β) (m : List (List α)) :
    matSize (m.map (List.map g)) = matSize m := by
  simp [matSize, List.map_map, Function.comp_def]

/-- C7 counterexample: the radial scanline extractors do NOT reject a
zero-length region with an error — both return an empty profile as an
ordinary successful result (their return type has no error case at all),
exactly what the claim forbids. -/
theorem c7_counterexample :
    Scanline.extract_radial_scanline ⟨2, 2, fun _ _ => [9]⟩ 1 1 1 0 0 = [] ∧
    Scanline.extract_roi_pixels_circular ⟨2, 2, fun _ _ => (9, 9, 9)⟩ 1 1 1 0 0
      = [] := ⟨rfl, rfl⟩

/-- C7 amended: only the rectangular variant
(`AudioProcessor.extract_roi_pixels`) rejects a zero-area region, raising
`ValueError` — whenever it returns successfully the profile is non-empty.
The radial variants (`extract_radial_scanline`,
`extract_roi_pixels_circular`) have no error path and return an empty
profile for a zero-length region. -/
theorem c7_empty_region_behavior :
    (∀ (zm : Bool) (zr tpz : ℕ) (f : BGRFrame) (x y w h fc fps : ℕ)
        (roi : List (List ℕ)) (region : ℕ × ℕ × ℕ × ℕ),
      extract_roi_pixels zm zr tpz f x y w h fc fps =
        Except.ok (roi, region) → matSize roi ≠ 0) ∧
    (∀ (g : ChanFrame) (cx cy : ℤ) (cosA sinA : ℚ),
      extract_radial_scanline g cx cy cosA sinA 0 = []) ∧
    (∀ (f : BGRFrame) (cx cy : ℤ) (cosA sinA : ℚ),
      extract_roi_pixels_circular f cx cy cosA sinA 0 = []) := by
  refine ⟨?_, ?_, ?_⟩
  · intro zm zr tpz f x y w h fc fps roi region hok
    unfold extract_roi_pixels at hok
    cases zm with
    | false =>
      simp only [Bool.false_eq_true, if_false] at hok
      split_ifs at hok with hsz
      rw [Except.ok.injEq, Prod.mk.injEq] at hok
      rw [← hok.1, matSize_map_rows]
      exact hsz
    | true =>
      simp only [if_true] at hok
      by_cases hhf : fps * tpz = 0
      · simp [hhf] at hok
      · simp only [hhf, if_false] at hok
        split_ifs at hok with hsz
        rw [Except.ok.injEq, Prod.mk.injEq] at hok
        rw [← hok.1, matSize_map_rows]
        exact hsz
  · intro g cx cy cosA sinA
    rfl
  · intro f cx cy cosA sinA
    rfl

/-- Witness for C7 amended: a successful rectangular extraction on a 4×4
frame yields a non-empty ROI, and zero-length radial scans return empty
lists. -/
theorem c7_empty_region_behavior_witness :
    matSize [[22], [22]] ≠ 0 ∧
    Scanline.extract_radial_scanline ⟨3, 3, fun _ _ => [1]⟩ 0 0 1 0 0 = [] ∧
    Scanline.extract_roi_pixels_circular ⟨3, 3, fun _ _ => (1, 2, 3)⟩ 0 0 1 0 0
      = [] :=
  ⟨c7_empty_region_behavior.1 false 88 30 ⟨4, 4, fun _ _ => (10, 20, 30)⟩
      0 0 1 2 0 30 [[22], [22]] (0, 0, 1, 2) (by rfl),
   c7_empty_region_behavior.2.1 ⟨3, 3, fun _ _ => [1]⟩ 0 0 1 0,
   c7_empty_region_behavior.2.2 ⟨3, 3, fun _ _ => (1, 2, 3)⟩ 0 0 1 0⟩

end Claim7

namespace FixedTurntable

/-- One `note_data` entry appended by `TurntableScoreRecorder.add_notes`
(src/revised/fixed_turntable.py lines 116-121). -/
structure NoteData where
  frame : ℤ
  notes : List ℤ
  velocities : List ℤ
  durations : List ℚ
  deriving DecidableEq

/-- One zodiac-section entry (src/revised/fixed_turntable.py lines
126-130). -/
structure ZodiacEntry where
  frame : ℤ
  section_no : ℕ
  deriving DecidableEq

/-- The `current_rotation` dictionary (src/revised/fixed_turntable.py lines
69-74). -/
structure Rotation where
  frame_start : ℤ
  notes : List NoteData
  zodiac_sections : List ZodiacEntry
  raw_rois : List (List ℕ)
  deriving DecidableEq

/-- State of `TurntableScoreRecorder` (src/revised/fixed_turntable.py lines
44-88).  `score_data['metadata']` is flattened into the scale / roi_mode
fields; the session path and timestamps are file-system only and carry no
recording logic. -/
structure TurntableScoreRecorder where
  rpm : ℚ
  fps : ℚ
  rotation_time : ℚ
  frames_per_rotation : ℤ
  scale : Option String
  roi_mode : Option String
  rotations : List Rotation
  current_rotation : Rotation
  is_recording : Bool
  recorded_rotations : ℕ
  max_rotations : ℕ
  is_loaded : Bool
  deriving DecidableEq

/-- Constructor `TurntableScoreRecorder.__init__` (lines 49-88).  Lines
82-83 re-derive `rotation_time` and `frames_per_rotation` with an
`rpm > 0` guard; for `rpm ≤ 0` the source stores `float('inf')` (never
read by the recording logic, modelled as 0 here) and
`frames_per_rotation = 0`. -/
def TurntableScoreRecorder.init (rpm fps : ℚ) : TurntableScoreRecorder :=
  { rpm := rpm
    fps := fps
    rotation_time := if 0 < rpm then 60 / rpm else 0
    frames_per_rotation := if 0 < rpm then pyint ((60 / rpm) * fps) else 0
    scale := none
    roi_mode := none
    rotations := []
    current_rotation := { frame_start := 0, notes := [], zodiac_sections := [],
                          raw_rois := [] }
    is_recording := false
    recorded_rotations := 0
    max_rotations := 1
    is_loaded := false }

/-- Embedding of `start_recording(frame_count, scale, roi_mode)` (lines
90-106); the timestamped session-folder path is file-system bookkeeping and
is omitted. -/
def TurntableScoreRecorder.start_recording (r : TurntableScoreRecorder)
    (frame_count : ℤ) (scale roi_mode : String) : TurntableScoreRecorder :=
  { r with
      is_recording := true
      recorded_rotations := 0
      current_rotation := { r.current_rotation with frame_start := frame_count }
      scale := some scale
      roi_mode := some roi_mode }

/-- Embedding of `add_notes(frame_count, midi_notes, velocities, durations,
raw_roi, zodiac_section)` (lines 108-130).  A call while not recording
returns the state unchanged.  `if zodiac_section:` is Python truthiness:
`None` and 0 are falsy. -/
def TurntableScoreRecorder.add_notes (r : TurntableScoreRecorder)
    (frame_count : ℤ) (midi_notes velocities : List ℤ) (durations : List ℚ)
    (raw_roi : List ℕ) (zodiac_section : Option ℕ) : TurntableScoreRecorder :=
  if r.is_recording = false then r
  else
    let relative_frame := frame_count - r.current_rotation.frame_start
    let note_data : NoteData :=
      ⟨relative_frame, midi_notes, velocities, durations⟩
    let cur := { r.current_rotation with
        notes := r.current_rotation.notes ++ [note_data]
        raw_rois := r.current_rotation.raw_rois ++ [raw_roi] }
    let cur2 := match zodiac_section with
      | some zs =>
        if zs ≠ 0 then
          { cur with zodiac_sections :=
              cur.zodiac_sections ++ [⟨relative_frame, zs⟩] }
        else cur
      | none => cur
    { r with current_rotation := cur2 }

/-- Embedding of `stop_recording` (lines 165-171); `save_score` only writes
files. -/
def TurntableScoreRecorder.stop_recording (r : TurntableScoreRecorder) :
    TurntableScoreRecorder :=
  if r.is_recording = false then r else { r with is_recording := false }

/-- Embedding of `check_rotation_complete(frame_count)` (lines 132-163),
returning the updated state and the boolean result.  `save_visual_score`
only writes image files and is omitted. -/
def TurntableScoreRecorder.check_rotation_complete
    (r : TurntableScoreRecorder) (frame_count : ℤ) :
    TurntableScoreRecorder × Bool :=
  if r.is_recording = false then (r, false)
  else
    let relative_frame := frame_count - r.current_rotation.frame_start
    if r.frames_per_rotation ≤ relative_frame then
      let r1 := { r with
          recorded_rotations := r.recorded_rotations + 1
          rotations := r.rotations ++ [r.current_rotation]
          current_rotation := { frame_start := frame_count, notes := [],
                                zodiac_sections := [], raw_rois := [] } }
      if r1.max_rotations ≤ r1.recorded_rotations then
        (r1.stop_recording, true)
      else (r1, false)
    else (r, false)

/-- Run a sequence of `check_rotation_complete` calls, threading the state
and collecting the returned booleans. -/
def runChecks : TurntableScoreRecorder → List ℤ → List Bool
  | _, [] => []
  | r, f :: fs =>
    let step := r.check_rotation_complete f
    step.2 :: runChecks step.1 fs

/-- Expected output shape of a recording session started at frame `s` with
`fpr` frames per rotation: `false` until the first frame whose relative
index reaches `fpr`, `true` exactly there, `false` ever after. -/
def firstHit (fpr s : ℤ) : List ℤ → List Bool
  | [] => []
  | f :: fs =>
    if fpr ≤ f - s then true :: fs.map (fun _ => false)
    else false :: firstHit fpr s fs

end FixedTurntable

section Claim5

open FixedTurntable

/-- Unfolding equation of `firstHit` on a cons cell. -/
theorem firstHit_cons (fpr s f : ℤ) (fs : List ℤ) :
    firstHit fpr s (f :: fs) =
      if fpr ≤ f - s then true :: fs.map (fun _ => false)
      else false :: firstHit fpr s fs := rfl

/-- A recorder that is not recording answers `false` to every check and
never changes state. -/
theorem runChecks_not_recording (r : TurntableScoreRecorder)
    (h : r.is_recording = false) (fs : List ℤ) :
    runChecks r fs = fs.map fun _ => false := by
  induction fs with
  | nil => rfl
  | cons f fs ih =>
    have hc : r.check_rotation_complete f = (r, false) := by
      unfold TurntableScoreRecorder.check_rotation_complete
      rw [if_pos h]
    simp only [runChecks, hc, List.map_cons]
    exact congrArg _ (ih)

/-- A freshly armed recorder (recording, zero completed rotations, single
max rotation, start frame `s`) produces exactly the `firstHit` pattern. -/
theorem runChecks_armed (r : TurntableScoreRecorder) (s : ℤ) (fs : List ℤ)
    (hrec : r.is_recording = true) (hcnt : r.recorded_rotations = 0)
    (hmax : r.max_rotations = 1) (hstart : r.current_rotation.frame_start = s) :
    runChecks r fs = firstHit r.frames_per_rotation s fs := by
  induction fs generalizing r with
  | nil => rfl
  | cons f fs ih =>
    by_cases hdone : r.frames_per_rotation ≤ f - s
    · have hc : r.check_rotation_complete f =
          ({ r with
              is_recording := false
              recorded_rotations := r.recorded_rotations + 1
              rotations := r.rotations ++ [r.current_rotation]
              current_rotation := { frame_start := f, notes := [],
                                    zodiac_sections := [], raw_rois := [] } },
           true) := by
        unfold TurntableScoreRecorder.check_rotation_complete
        rw [if_neg (by simp [hrec]), hstart, if_pos hdone,
          if_pos (by simp [hmax, hcnt])]
        unfold TurntableScoreRecorder.stop_recording
        rw [if_neg (by simp [hrec])]
      simp only [runChecks, hc]
      rw [runChecks_not_recording _ rfl fs]
      rw [firstHit_cons, if_pos hdone]
    · have hc : r.check_rotation_complete f = (r, false) := by
        unfold TurntableScoreRecorder.check_rotation_complete
        rw [if_neg (by simp [hrec]), hstart, if_neg hdone]
      simp only [runChecks, hc]
      rw [ih r hrec hcnt hmax hstart]
      rw [firstHit_cons, if_neg hdone]

/-- C5: for a recording session started at frame `s` (on a recorder whose
`max_rotations` is the constructor's 1), the sequence of
`check_rotation_complete` results is `true` exactly on the first call whose
relative frame index reaches `frames_per_rotation` and `false` on every
earlier and every later call; and `add_notes` outside the Recording state
is a no-op, not an error. -/
theorem c5_rotation_completion (r0 : TurntableScoreRecorder)
    (hmax : r0.max_rotations = 1) (s : ℤ) (scale roi_mode : String)
    (fs : List ℤ) :
    runChecks (r0.start_recording s scale roi_mode) fs =
      firstHit (r0.start_recording s scale roi_mode).frames_per_rotation s fs ∧
    (∀ (r : TurntableScoreRecorder) (fc : ℤ) (mn vs : List ℤ) (ds : List ℚ)
        (roi : List ℕ) (zs : Option ℕ),
      r.is_recording = false → r.add_notes fc mn vs ds roi zs = r) := by
  constructor
  · exact runChecks_armed _ s fs rfl rfl hmax rfl
  · intro r fc mn vs ds roi zs h
    unfold TurntableScoreRecorder.add_notes
    rw [if_pos h]

/-- Witness for C5: rpm 2.5 / fps 30 recorder (720 frames per rotation),
session started at frame 10, checks at frames 10, 729, 730, 2000 —
completion fires exactly at frame 730. -/
theorem c5_rotation_completion_witness :
    runChecks ((TurntableScoreRecorder.init (5/2) 30).start_recording 10
        "CPentatonic" "circular") [10, 729, 730, 2000] =
      firstHit ((TurntableScoreRecorder.init (5/2) 30).start_recording 10
        "CPentatonic" "circular").frames_per_rotation 10 [10, 729, 730, 2000] ∧
    (∀ (r : TurntableScoreRecorder) (fc : ℤ) (mn vs : List ℤ) (ds : List ℚ)
        (roi : List ℕ) (zs : Option ℕ),
      r.is_recording = false → r.add_notes fc mn vs ds roi zs = r) :=
  c5_rotation_completion (TurntableScoreRecorder.init (5/2) 30) rfl 10
    "CPentatonic" "circular" [10, 729, 730, 2000]

end Claim5

namespace AudioUtilsSimple

/-- Embedding of `process_roi_to_midi_data`
(src/revised/utils/audio_utils_simple.py lines 254-262): the function
unconditionally raises `DeprecationWarning`, regardless of its arguments. -/
def process_roi_to_midi_data (roi : List ℕ) (scale : String)
    (vel_range : ℚ × ℚ := (32, 127)) (dur_range : ℚ × ℚ := (4/5, 9/5)) :
    Except String (List ℤ × List ℤ × List ℚ) :=
  Except.error "DeprecationWarning: process_roi_to_midi_data is deprecated"

end AudioUtilsSimple

namespace FixedTurntable

open AudioUtilsSimple

/-- Embedding of `process_circular_roi_to_midi_data`
(src/revised/fixed_turntable.py lines 565-583): empty scanlines yield an
empty result; otherwise the scanline is resampled to 88 entries
(`np.linspace(0, n-1, 88, dtype=int)` index selection when longer,
`np.tile` repetition truncated to 88 when shorter) and handed — reshaped —
to `process_roi_to_midi_data`, which raises. -/
def process_circular_roi_to_midi_data (scanline_values : List ℕ)
    (scale : String) (vel_range : ℚ × ℚ := (32, 127))
    (dur_range : ℚ × ℚ := (4/5, 9/5)) :
    Except String (List ℤ × List ℤ × List ℚ) :=
  if scanline_values.length = 0 then Except.ok ([], [], [])
  else
    let n := scanline_values.length
    let sampled :=
      if 88 < n then
        (List.range 88).map fun (i : ℕ) =>
          scanline_values.getD ((i * (n - 1)) / 87) 0
      else
        ((List.replicate ((88 + n - 1) / n) scanline_values).join).take 88
    process_roi_to_midi_data sampled scale vel_range dur_range

/-- The parts of a loaded `score_data` read by
`get_playback_notes_from_npy`: the metadata scale (`.get` with default),
the metadata roi_mode (direct key access), and per rotation the optional
`raw_rois` key holding the per-frame profiles. -/
structure LoadedScore where
  scale : Option String
  roi_mode : String
  rotations : List (Option (List (List ℕ)))

/-- Embedding of `TurntableScoreRecorder.get_playback_notes_from_npy`
(src/revised/fixed_turntable.py lines 315-334): empty/missing data yields
an empty result; otherwise the ROI at `frame_count % len(rois)` is fed to
`process_circular_roi_to_midi_data` (circular mode) or directly to
`process_roi_to_midi_data` (any other mode). -/
def get_playback_notes_from_npy (sd : LoadedScore) (frame_count : ℕ) :
    Except String (List ℤ × List ℤ × List ℚ) :=
  match sd.rotations with
  | [] => Except.ok ([], [], [])
  | rot0 :: _ =>
    match rot0 with
    | none => Except.ok ([], [], [])
    | some rois =>
      if rois.length = 0 then Except.ok ([], [], [])
      else
        let relative_frame := frame_count % rois.length
        let roi_gray := rois.getD relative_frame []
        let scale := sd.scale.getD "CPentatonic"
        if sd.roi_mode = "circular" then
          process_circular_roi_to_midi_data roi_gray scale
        else
          process_roi_to_midi_data roi_gray scale

end FixedTurntable

section Claim4

open FixedTurntable AudioUtilsSimple

/-- C4 (code bug): playing back a raw-profile-only recording does NOT
return a recomputed Chord — in both roi modes `get_playback_notes_from_npy`
ends in `process_roi_to_midi_data`, which unconditionally raises
`DeprecationWarning`, so every playback call on non-empty stored profiles
raises instead of producing notes.  Evaluated here at a loaded recording
holding a single 88-sample zero profile, played at frame 0. -/
theorem c4_npy_playback_raises :
    get_playback_notes_from_npy
      ⟨some "CPentatonic", "rectangular", [some [List.replicate 88 0]]⟩ 0 =
      Except.error
        "DeprecationWarning: process_roi_to_midi_data is deprecated" ∧
    get_playback_notes_from_npy
      ⟨some "CPentatonic", "circular", [some [List.replicate 88 0]]⟩ 0 =
      Except.error
        "DeprecationWarning: process_roi_to_midi_data is deprecated" :=
  ⟨rfl, rfl⟩

end Claim4

namespace AudioUtilsSimple

/-- Configuration values read by `generate_midi_from_roi`
(src/revised/utils/audio_utils_simple.py lines 163-182) after applying the
`config.get` defaults, with the scale definition resolved to its note list
(`list(range(21, 109))` for the default 'Piano' entry). -/
structure MidiGenConfig where
  sampling_mode : String
  note_count_max : ℕ
  velocity_range : ℚ × ℚ
  velocity_threshold : ℚ
  scale_notes : List ℤ

/-- The static position-to-pitch lattice `np.arange(108, 20, -1)`
(src/revised/utils/audio_utils_simple.py line 207). -/
def piano_notes : List ℤ := (List.range 88).map fun (i : ℕ) => 108 - (i : ℤ)

/-- `np.interp(m, [100, 255], [lo, hi])` as used at line 223: clamped
linear interpolation between the fixed break points 100 and 255. -/
def npInterp (m lo hi : ℚ) : ℚ :=
  if m ≤ 100 then lo
  else if 255 ≤ m then hi
  else lo + (m - 100) * (hi - lo) / 155

/-- First (leftmost) minimizer of `f` over a list, the semantics of
`np.argmin` combined with the index lookup. -/
def firstMinBy (f : ℤ → ℤ) : List ℤ → Option ℤ
  | [] => none
  | a :: rest =>
    match firstMinBy f rest with
    | none => some a
    | some m => if f a ≤ f m then some a else some m

/-- `available_scale_notes[np.abs(np.array(available_scale_notes) -
piano_notes[i]).argmin()]` (lines 219-220): the in-scale note nearest to
the target by absolute distance, first occurrence on ties. -/
def nearest_scale_note (avail : List ℤ) (target : ℤ) : ℤ :=
  (firstMinBy (fun a => |a - target|) avail).getD 0

/-- `sorted([n for n in piano_notes if n in scale_notes], reverse=True)`
(line 210). -/
def available_scale_notes (scale_notes : List ℤ) : List ℤ :=
  (piano_notes.filter fun n => decide (n ∈ scale_notes)).mergeSort
    fun a b => decide (b ≤ a)

/-- Loop body of the candidate loop (lines 216-229): map row `i` to its
nearest in-scale pitch, interpolate the velocity, and append the pair when
the velocity clears the threshold and the pitch is not yet present. -/
def addCandidate (cfg : MidiGenConfig) (avail : List ℤ) (mags : ℕ → ℚ)
    (acc : List (ℤ × ℚ)) (i : ℕ) : List (ℤ × ℚ) :=
  let mapped_note := nearest_scale_note avail (piano_notes.getD i 0)
  let velocity := npInterp (mags i) cfg.velocity_range.1 cfg.velocity_range.2
  if cfg.velocity_threshold ≤ velocity then
    if acc.any fun c => c.1 = mapped_note then acc
    else acc ++ [(mapped_note, velocity)]
  else acc

/-- The whole candidate loop `for i in range(88)` (lines 215-229). -/
def buildCandidates (cfg : MidiGenConfig) (avail : List ℤ) (mags : ℕ → ℚ) :
    List (ℤ × ℚ) :=
  (List.range 88).foldl (addCandidate cfg avail mags) []

/-- Final selection (lines 234-243): shuffle-and-take for the 'random'
sampling mode, stable sort by descending velocity and take otherwise. -/
def select_final (cfg : MidiGenConfig)
    (shuffle : List (ℤ × ℚ) → List (ℤ × ℚ)) (candidates : List (ℤ × ℚ)) :
    List (ℤ × ℚ) :=
  if cfg.sampling_mode = "random" then
    (shuffle candidates).take cfg.note_count_max
  else
    (candidates.mergeSort fun a b => decide (b.2 ≤ a.2)).take
      cfg.note_count_max

/-- Stages 0-2 of `generate_midi_from_roi` (src/revised/utils/
audio_utils_simple.py lines 184-202): uint8 brightness inversion
`255 - roi_gray`, height normalization to 88 rows (the external
`cv.resize(.., (w, 88), INTER_LINEAR)` call, passed in as `resize_to_88`,
invoked only when the ROI does not already have 88 rows), and the per-row
mean `np.mean(roi_normalized, axis=1)`. -/
def roi_magnitudes (resize_to_88 : List (List ℕ) → List (List ℕ))
    (roi_gray : List (List ℕ)) : ℕ → ℚ :=
  let roi_inverted := roi_gray.map (List.map fun (v : ℕ) => 255 - v % 256)
  let roi_normalized :=
    if roi_inverted.length ≠ 88 then resize_to_88 roi_inverted
    else roi_inverted
  fun i => listMean ((roi_normalized.getD i []).map fun (v : ℕ) => (v : ℚ))

/-- Embedding of `generate_midi_from_roi(roi_gray, config)`
(src/revised/utils/audio_utils_simple.py lines 154-251).  The ROI is a
row list of uint8 pixel values.  External calls are parameters:
`resize_to_88` stands for the `cv.resize` height normalization, `shuffle`
for `random.shuffle`, and `uniform_draw i` for the i-th
`random.uniform(500, 3000)` duration draw.  Returns
`(midi notes, velocities, durations)`. -/
def generate_midi_from_roi (cfg : MidiGenConfig)
    (resize_to_88 : List (List ℕ) → List (List ℕ))
    (shuffle : List (ℤ × ℚ) → List (ℤ × ℚ))
    (uniform_draw : ℕ → ℚ)
    (roi_gray : List (List ℕ)) : List ℤ × List ℤ × List ℚ :=
  if roi_gray.length = 0 ∨ roi_gray.headI.length = 0 then ([], [], [])
  else
    let magnitudes := roi_magnitudes resize_to_88 roi_gray
    let avail := available_scale_notes cfg.scale_notes
    if avail.length = 0 then ([], [], [])
    else
      let candidates := buildCandidates cfg avail magnitudes
      if candidates.length = 0 then ([], [], [])
      else
        let final_notes := select_final cfg shuffle candidates
        let output_notes := final_notes.map fun c => c.1
        let output_velocities := final_notes.map fun c => pyint c.2
        let output_durations :=
          (List.range output_notes.length).map uniform_draw
        (output_notes, output_velocities, output_durations)

end AudioUtilsSimple

section Claim2

open AudioUtilsSimple

/-- A first-minimizer returned by `firstMinBy` is an element of the list. -/
theorem firstMinBy_mem (f : ℤ → ℤ) :
    ∀ (l : List ℤ) (m : ℤ), firstMinBy f l = some m → m ∈ l := by
  intro l
  induction l with
  | nil => intro m h; simp [firstMinBy] at h
  | cons a rest ih =>
    intro m h
    unfold firstMinBy at h
    split at h
    · injection h with h
      exact h ▸ List.mem_cons_self a rest
    · next b hrec =>
      split_ifs at h with hle
      · injection h with h
        exact h ▸ List.mem_cons_self a rest
      · injection h with h
        exact h ▸ List.mem_cons_of_mem a (ih b hrec)

/-- `firstMinBy` finds a minimizer on every non-empty list. -/
theorem firstMinBy_isSome (f : ℤ → ℤ) :
    ∀ (l : List ℤ), l ≠ [] → ∃ m, firstMinBy f l = some m := by
  intro l hl
  cases l with
  | nil => exact absurd rfl hl
  | cons a rest =>
    unfold firstMinBy
    split
    · exact ⟨a, rfl⟩
    · next b hrec =>
      by_cases hle : f a ≤ f b
      · rw [if_pos hle]; exact ⟨a, rfl⟩
      · rw [if_neg hle]; exact ⟨b, rfl⟩

/-- The nearest in-scale note is drawn from the available-note list. -/
theorem nearest_scale_note_mem (avail : List ℤ) (t : ℤ) (h : avail ≠ []) :
    nearest_scale_note avail t ∈ avail := by
  obtain ⟨m, hm⟩ := firstMinBy_isSome (fun a => |a - t|) avail h
  unfold nearest_scale_note
  rw [hm]
  exact firstMinBy_mem _ avail m hm

/-- Available notes are in-scale notes of the 88-key piano range. -/
theorem mem_available_scale_notes (scale_notes : List ℤ) (n : ℤ)
    (h : n ∈ available_scale_notes scale_notes) :
    n ∈ scale_notes ∧ 21 ≤ n ∧ n ≤ 108 := by
  unfold available_scale_notes at h
  rw [List.mem_mergeSort] at h
  have h2 := List.of_mem_filter h
  have h1 := List.mem_of_mem_filter h
  refine ⟨by simpa using h2, ?_⟩
  unfold piano_notes at h1
  simp only [List.mem_map, List.mem_range] at h1
  obtain ⟨i, hi, rfl⟩ := h1
  omega

/-- Every candidate's note is an available note. -/
theorem foldl_addCandidate_mem (cfg : MidiGenConfig) (avail : List ℤ)
    (mags : ℕ → ℚ) (havail : avail ≠ []) :
    ∀ (l : List ℕ) (acc : List (ℤ × ℚ)),
      (∀ c ∈ acc, c.1 ∈ avail) →
      ∀ c ∈ l.foldl (addCandidate cfg avail mags) acc, c.1 ∈ avail := by
  intro l
  induction l with
  | nil => intro acc hacc c hc; exact hacc c hc
  | cons i l ih =>
    intro acc hacc c hc
    rw [List.foldl_cons] at hc
    refine ih _ ?_ c hc
    intro c' hc'
    simp only [addCandidate] at hc'
    split_ifs at hc' with h1 h2
    · exact hacc c' hc'
    · rcases List.mem_append.mp hc' with h | h
      · exact hacc c' h
      · simp only [List.mem_singleton] at h
        subst h
        exact nearest_scale_note_mem avail _ havail
    · exact hacc c' hc'

/-- Every candidate's velocity satisfies any predicate satisfied by the
interpolated magnitudes of the loop indices. -/
theorem foldl_addCandidate_vel (cfg : MidiGenConfig) (avail : List ℤ)
    (mags : ℕ → ℚ) (P : ℚ → Prop) :
    ∀ (l : List ℕ),
      (∀ i ∈ l,
        P (npInterp (mags i) cfg.velocity_range.1 cfg.velocity_range.2)) →
      ∀ (acc : List (ℤ × ℚ)), (∀ c ∈ acc, P c.2) →
      ∀ c ∈ l.foldl (addCandidate cfg avail mags) acc, P c.2 := by
  intro l
  induction l with
  | nil => intro _ acc hacc c hc; exact hacc c hc
  | cons i l ih =>
    intro hl acc hacc c hc
    rw [List.foldl_cons] at hc
    refine ih (fun j hj => hl j (List.mem_cons_of_mem i hj)) _ ?_ c hc
    intro c' hc'
    simp only [addCandidate] at hc'
    split_ifs at hc' with h1 h2
    · exact hacc c' hc'
    · rcases List.mem_append.mp hc' with h | h
      · exact hacc c' h
      · simp only [List.mem_singleton] at h
        subst h
        exact hl i (List.mem_cons_self i l)
    · exact hacc c' hc'

/-- A selected final note list is a sub-collection of the candidates. -/
theorem select_final_subset (cfg : MidiGenConfig)
    (shuffle : List (ℤ × ℚ) → List (ℤ × ℚ))
    (hshuf : ∀ l, (shuffle l).Perm l) (cand : List (ℤ × ℚ)) :
    ∀ c ∈ select_final cfg shuffle cand, c ∈ cand := by
  intro c hc
  unfold select_final at hc
  split_ifs at hc
  · exact ((hshuf cand).mem_iff).mp (List.mem_of_mem_take hc)
  · exact List.mem_mergeSort.mp (List.mem_of_mem_take hc)

/-- The selection keeps at most `note_count_max` notes. -/
theorem select_final_length (cfg : MidiGenConfig)
    (shuffle : List (ℤ × ℚ) → List (ℤ × ℚ)) (cand : List (ℤ × ℚ)) :
    (select_final cfg shuffle cand).length ≤ cfg.note_count_max := by
  unfold select_final
  split_ifs
  · rw [List.length_take]; exact min_le_left _ _
  · rw [List.length_take]; exact min_le_left _ _

/-- C2: for every configuration, input profile, shuffle permutation and
duration draw, the mapper's output contains at most `note_count_max` notes
and every output `midi_note` lies in the active scale's note set
intersected with the 88-key range `[21, 108]`. -/
theorem c2_mapper_bounded_and_in_scale (cfg : MidiGenConfig)
    (resizeF : List (List ℕ) → List (List ℕ))
    (shuffleF : List (ℤ × ℚ) → List (ℤ × ℚ)) (durs : ℕ → ℚ)
    (roi : List (List ℕ)) (hshuf : ∀ l, (shuffleF l).Perm l) :
    (generate_midi_from_roi cfg resizeF shuffleF durs roi).1.length ≤
      cfg.note_count_max ∧
    ∀ n ∈ (generate_midi_from_roi cfg resizeF shuffleF durs roi).1,
      n ∈ cfg.scale_notes ∧ 21 ≤ n ∧ n ≤ 108 := by
  simp only [generate_midi_from_roi]
  split_ifs with h0 h1 h2
  · exact ⟨by simp, by simp⟩
  · exact ⟨by simp, by simp⟩
  · exact ⟨by simp, by simp⟩
  · dsimp only
    constructor
    · rw [List.length_map]
      exact select_final_length _ _ _
    · intro n hn
      rw [List.mem_map] at hn
      obtain ⟨c, hc, rfl⟩ := hn
      have hcand := select_final_subset cfg shuffleF hshuf _ c hc
      have havail : available_scale_notes cfg.scale_notes ≠ [] := by
        intro hnil
        exact h1 (by rw [hnil]; rfl)
      have hmem := foldl_addCandidate_mem cfg _ _ havail (List.range 88) []
        (by simp) c hcand
      exact mem_available_scale_notes cfg.scale_notes c.1 hmem

/-- Witness for C2: identity shuffle, a 2×1 profile, a small scale. -/
theorem c2_mapper_bounded_and_in_scale_witness :
    (AudioUtilsSimple.generate_midi_from_roi
        ⟨"importance", 5, (32, 127), 32, [60, 62, 64, 67, 69]⟩ id id
        (fun _ => 1000) [[0], [255]]).1.length ≤ 5 ∧
    ∀ n ∈ (AudioUtilsSimple.generate_midi_from_roi
        ⟨"importance", 5, (32, 127), 32, [60, 62, 64, 67, 69]⟩ id id
        (fun _ => 1000) [[0], [255]]).1,
      n ∈ ([60, 62, 64, 67, 69] : List ℤ) ∧ 21 ≤ n ∧ n ≤ 108 :=
  c2_mapper_bounded_and_in_scale
    ⟨"importance", 5, (32, 127), 32, [60, 62, 64, 67, 69]⟩ id id
    (fun _ => 1000) [[0], [255]] (fun l => List.Perm.refl l)

end Claim2

section Claim6

open AudioUtilsSimple

/-- Mean of a constant non-empty list. -/
theorem listMean_const (l : List ℚ) (c : ℚ) (hne : l ≠ []) (h : ∀ x ∈ l, x = c) :
    listMean l = c := by
  unfold listMean
  rw [List.sum_eq_card_nsmul l c h, nsmul_eq_mul]
  have hlen : (l.length : ℚ) ≠ 0 := by
    have := List.length_pos.mpr hne
    positivity
  field_simp

/-- Magnitudes of an 88-row constant-valued profile: every row mean is
the inverted pixel value. -/
theorem roi_magnitudes_of_const (resizeF : List (List ℕ) → List (List ℕ))
    (roi : List (List ℕ)) (v : ℕ) (hlen : roi.length = 88)
    (hrows : ∀ row ∈ roi, row ≠ [] ∧ ∀ x ∈ row, x = v)
    (i : ℕ) (hi : i < 88) :
    roi_magnitudes resizeF roi i = ((255 - v % 256 : ℕ) : ℚ) := by
  unfold roi_magnitudes
  rw [if_neg (by simp [hlen])]
  have hget : (roi.map (List.map fun (x : ℕ) => 255 - x % 256)).getD i [] =
      (roi.getD i []).map (fun x => 255 - x % 256) := by
    rw [List.getD_eq_getElem?_getD, List.getD_eq_getElem?_getD,
      List.getElem?_map]
    cases h : roi[i]? with
    | none => rfl
    | some row => rfl
  rw [hget]
  have hilen : i < roi.length := by omega
  have hrowmem : roi.getD i [] ∈ roi := by
    rw [List.getD_eq_getElem?_getD, List.getElem?_eq_getElem hilen]
    exact List.getElem_mem hilen
  obtain ⟨hrne, hrval⟩ := hrows _ hrowmem
  apply listMean_const
  · simp only [ne_eq, List.map_eq_nil_iff]
    exact hrne
  · intro x hx
    simp only [List.map_map, List.mem_map, Function.comp_apply] at hx
    obtain ⟨y, hy, rfl⟩ := hx
    rw [hrval y hy]

/-- A candidate fold starting from a non-empty accumulator stays
non-empty. -/
theorem foldl_addCandidate_ne_nil (cfg : MidiGenConfig) (avail : List ℤ)
    (mags : ℕ → ℚ) :
    ∀ (l : List ℕ) (acc : List (ℤ × ℚ)), acc ≠ [] →
      l.foldl (addCandidate cfg avail mags) acc ≠ [] := by
  intro l
  induction l with
  | nil => intro acc h; exact h
  | cons i l ih =>
    intro acc h
    rw [List.foldl_cons]
    apply ih
    simp only [addCandidate]
    split_ifs with h1 h2
    · exact h
    · intro hcontr
      exact h (List.append_eq_nil.mp hcontr).1
    · exact h

/-- When every loop index clears the velocity threshold the candidate list
is non-empty. -/
theorem buildCandidates_ne_nil (cfg : MidiGenConfig) (avail : List ℤ)
    (mags : ℕ → ℚ)
    (hthr : ∀ i : ℕ, i < 88 → cfg.velocity_threshold ≤
      npInterp (mags i) cfg.velocity_range.1 cfg.velocity_range.2) :
    buildCandidates cfg avail mags ≠ [] := by
  unfold buildCandidates
  cases hr : List.range 88 with
  | nil => exact absurd (congrArg List.length hr) (by simp)
  | cons a l =>
    rw [List.foldl_cons]
    apply foldl_addCandidate_ne_nil
    have ha : a < 88 := by
      have : a ∈ List.range 88 := hr ▸ List.mem_cons_self a l
      simpa using this
    simp only [addCandidate, List.any_nil]
    rw [if_pos (hthr a ha)]
    simp

/-- A selection from a non-empty candidate list with a positive
`note_count_max` is non-empty. -/
theorem select_final_ne_nil (cfg : MidiGenConfig)
    (shuffle : List (ℤ × ℚ) → List (ℤ × ℚ))
    (hshuf : ∀ l, (shuffle l).Perm l) (cand : List (ℤ × ℚ))
    (hcand : cand ≠ []) (hmax : 1 ≤ cfg.note_count_max) :
    select_final cfg shuffle cand ≠ [] := by
  unfold select_final
  have key : ∀ (l : List (ℤ × ℚ)), l.length = cand.length →
      l.take cfg.note_count_max ≠ [] := by
    intro l hl hnil
    have h1 : 0 < cand.length := List.length_pos.mpr hcand
    have h2 := congrArg List.length hnil
    rw [List.length_take, hl] at h2
    simp only [List.length_nil] at h2
    omega
  split_ifs
  · exact key _ ((hshuf cand).length_eq)
  · exact key _ (by simp)

/-- All output velocities equal `pyint w` when the interpolated velocity of
every loop index is the constant `w`. -/
theorem mapper_velocity_const (cfg : MidiGenConfig)
    (resizeF : List (List ℕ) → List (List ℕ))
    (shuffleF : List (ℤ × ℚ) → List (ℤ × ℚ)) (durs : ℕ → ℚ)
    (roi : List (List ℕ)) (w : ℚ) (hshuf : ∀ l, (shuffleF l).Perm l)
    (hvel : ∀ i : ℕ, i < 88 →
      npInterp (roi_magnitudes resizeF roi i) cfg.velocity_range.1
        cfg.velocity_range.2 = w) :
    ∀ v ∈ (generate_midi_from_roi cfg resizeF shuffleF durs roi).2.1,
      v = pyint w := by
  simp only [generate_midi_from_roi]
  split_ifs with h0 h1 h2
  · simp
  · simp
  · simp
  · dsimp only
    intro v hv
    rw [List.mem_map] at hv
    obtain ⟨c, hc, rfl⟩ := hv
    have hcand := select_final_subset cfg shuffleF hshuf _ c hc
    have hval := foldl_addCandidate_vel cfg _ _ (fun q => q = w)
      (List.range 88) (fun i hi => hvel i (by simpa using hi)) []
      (by simp) c hcand
    rw [hval]

/-- The mapper's note output is non-empty whenever the profile passes the
size guard, the scale overlaps the lattice, at least one note may be
selected, and every loop index clears the velocity threshold. -/
theorem mapper_output_ne_nil (cfg : MidiGenConfig)
    (resizeF : List (List ℕ) → List (List ℕ))
    (shuffleF : List (ℤ × ℚ) → List (ℤ × ℚ)) (durs : ℕ → ℚ)
    (roi : List (List ℕ)) (hshuf : ∀ l, (shuffleF l).Perm l)
    (hsize : ¬ (roi.length = 0 ∨ roi.headI.length = 0))
    (havail : available_scale_notes cfg.scale_notes ≠ [])
    (hmax : 1 ≤ cfg.note_count_max)
    (hthr : ∀ i : ℕ, i < 88 → cfg.velocity_threshold ≤
      npInterp (roi_magnitudes resizeF roi i) cfg.velocity_range.1
        cfg.velocity_range.2) :
    (generate_midi_from_roi cfg resizeF shuffleF durs roi).1 ≠ [] := by
  simp only [generate_midi_from_roi]
  rw [if_neg hsize,
    if_neg (by simpa [List.length_eq_zero] using havail)]
  have hcand : buildCandidates cfg (available_scale_notes cfg.scale_notes)
      (roi_magnitudes resizeF roi) ≠ [] :=
    buildCandidates_ne_nil _ _ _ hthr
  rw [if_neg (by simpa [List.length_eq_zero] using hcand)]
  dsimp only
  intro hnil
  exact select_final_ne_nil cfg shuffleF hshuf _ hcand hmax
    (List.map_eq_nil_iff.mp hnil)

/-- C6 counterexample: an all-max-intensity profile does NOT yield an
empty Chord under `vel_range = [32, 127]` and the default
`velocity_threshold = 32`: the post-inversion magnitudes are 0, the
interpolated velocity is the min bound 32, and the threshold test is
`velocity >= vel_threshold`, which 32 passes — so with the scale `[60]`
the output still contains a note. -/
theorem c6_counterexample :
    (AudioUtilsSimple.generate_midi_from_roi
        ⟨"importance", 5, (32, 127), 32, [60]⟩ id id (fun _ => 1000)
        (List.replicate 88 [255])).1 ≠ [] := by
  apply mapper_output_ne_nil
  · exact fun l => List.Perm.refl l
  · simp
  · have hmem : (60 : ℤ) ∈ available_scale_notes [60] := by
      unfold available_scale_notes
      rw [List.mem_mergeSort]
      refine List.mem_filter.mpr ⟨?_, by simp⟩
      unfold piano_notes
      simp only [List.mem_map, List.mem_range]
      exact ⟨48, by norm_num, by norm_num⟩
    exact List.ne_nil_of_mem hmem
  · norm_num
  · intro i hi
    rw [roi_magnitudes_of_const id (List.replicate 88 [255]) 255 (by simp)
      (by simp) i hi]
    norm_num [npInterp]

/-- C6 amended: with `vel_range = [32, 127]` and the default
`velocity_threshold = 32`, an all-zero-intensity 88-row profile (all 255
after inversion) yields velocities all equal to the max bound 127, as
claimed; but an all-max-intensity profile (all 0 after inversion) yields
candidate velocities exactly at the min bound 32, which passes the
`>=` threshold test, so all its output velocities are 32 and the Chord is
NON-empty whenever the scale overlaps the lattice and `note_count_max ≥ 1`
— it is not empty as the claim stated. -/
theorem c6_extreme_profiles (scale_notes : List ℤ) (note_count_max : ℕ)
    (sampling_mode : String)
    (resizeF : List (List ℕ) → List (List ℕ))
    (shuffleF : List (ℤ × ℚ) → List (ℤ × ℚ)) (durs : ℕ → ℚ)
    (roi0 roi255 : List (List ℕ)) (hshuf : ∀ l, (shuffleF l).Perm l)
    (h0len : roi0.length = 88)
    (h0rows : ∀ row ∈ roi0, row ≠ [] ∧ ∀ x ∈ row, x = 0)
    (h255len : roi255.length = 88)
    (h255rows : ∀ row ∈ roi255, row ≠ [] ∧ ∀ x ∈ row, x = 255) :
    (∀ v ∈ (generate_midi_from_roi
        ⟨sampling_mode, note_count_max, (32, 127), 32, scale_notes⟩
        resizeF shuffleF durs roi0).2.1, v = 127) ∧
    (∀ v ∈ (generate_midi_from_roi
        ⟨sampling_mode, note_count_max, (32, 127), 32, scale_notes⟩
        resizeF shuffleF durs roi255).2.1, v = 32) ∧
    (available_scale_notes scale_notes ≠ [] → 1 ≤ note_count_max →
      (generate_midi_from_roi
        ⟨sampling_mode, note_count_max, (32, 127), 32, scale_notes⟩
        resizeF shuffleF durs roi255).1 ≠ []) := by
  have hm0 : ∀ i : ℕ, i < 88 → roi_magnitudes resizeF roi0 i = 255 := by
    intro i hi
    rw [roi_magnitudes_of_const resizeF roi0 0 h0len h0rows i hi]
    norm_num
  have hm255 : ∀ i : ℕ, i < 88 → roi_magnitudes resizeF roi255 i = 0 := by
    intro i hi
    rw [roi_magnitudes_of_const resizeF roi255 255 h255len h255rows i hi]
    norm_num
  refine ⟨?_, ?_, ?_⟩
  · intro v hv
    have h := mapper_velocity_const _ resizeF shuffleF durs roi0 127 hshuf
      (fun i hi => by rw [hm0 i hi]; norm_num [npInterp]) v hv
    rw [h]
    norm_num [pyint]
  · intro v hv
    have h := mapper_velocity_const _ resizeF shuffleF durs roi255 32 hshuf
      (fun i hi => by rw [hm255 i hi]; norm_num [npInterp]) v hv
    rw [h]
    norm_num [pyint]
  · intro havail hmax
    apply mapper_output_ne_nil _ resizeF shuffleF durs roi255 hshuf
    · intro hcontr
      rcases hcontr with h | h
      · rw [h] at h255len; exact absurd h255len (by norm_num)
      · have hne : roi255 ≠ [] := by
          intro hx; rw [hx] at h255len; exact absurd h255len (by norm_num)
        have hhead : roi255.headI ∈ roi255 := by
          cases roi255 with
          | nil => exact absurd rfl hne
          | cons a l => exact List.mem_cons_self a l
        exact (h255rows _ hhead).1 (List.length_eq_zero.mp h)
    · exact havail
    · exact hmax
    · intro i hi
      rw [hm255 i hi]
      norm_num [npInterp]

/-- Witness for C6 amended: concrete 88×1 all-zero and all-max profiles
with the scale `[60]`. -/
theorem c6_extreme_profiles_witness :
    (∀ v ∈ (AudioUtilsSimple.generate_midi_from_roi
        ⟨"importance", 5, (32, 127), 32, [60]⟩ id id (fun _ => 1000)
        (List.replicate 88 [0])).2.1, v = 127) ∧
    (AudioUtilsSimple.generate_midi_from_roi
        ⟨"importance", 5, (32, 127), 32, [60]⟩ id id (fun _ => 1000)
        (List.replicate 88 [255])).1 ≠ [] := by
  have h := c6_extreme_profiles [60] 5 "importance" id id (fun _ => 1000)
    (List.replicate 88 [0]) (List.replicate 88 [255])
    (fun l => List.Perm.refl l) (by simp) (by simp) (by simp) (by simp)
  refine ⟨h.1, h.2.2 ?_ (by norm_num)⟩
  have hmem : (60 : ℤ) ∈ available_scale_notes [60] := by
    unfold available_scale_notes
    rw [List.mem_mergeSort]
    refine List.mem_filter.mpr ⟨?_, by simp⟩
    unfold piano_notes
    simp only [List.mem_map, List.mem_range]
    exact ⟨48, by norm_num, by norm_num⟩
  exact List.ne_nil_of_mem hmem

end Claim6
